import Mathlib

/-!
Verification development for the two protocol bridges shipped as examples in
the pyindi-client repository: the Stellarium Telescope Control bridge
(`examples/pyindi-stellarium.py`) and the SynScan bridge
(`examples/pyindi-synscan.py`).

Modelling conventions:
* Python `bytes`/`bytearray` values are `List Nat` (each element a byte value
  0..255; where a fact needs the byte bound it appears as a hypothesis).
* Python `float` arithmetic is modelled as exact rational arithmetic over `ℚ`.
  Every float operation relevant to a proved statement here is exact in
  IEEE-754 double precision as well (products below 2^53 and divisions by
  powers of two), so the rational model is faithful on those paths.
* Python exceptions are modelled as `Except Unit`; a raised exception aborts
  `process_command` without returning a reply, which the embedding renders as
  `Except.error ()`.
* The INDI client library (PyIndi, a SWIG binding over a native library) is an
  external collaborator; its property fetches appear as an environment record
  holding, per INDI property, the outcome the retry accessors would produce.
-/

/-- Python slice `l[a:b]` for `0 ≤ a ≤ b` (clamping at the ends like Python). -/
def pySlice (l : List Nat) (a b : Nat) : List Nat :=
  (l.drop a).take (b - a)

/-- `to_be(n, size)` from pyindi-stellarium.py: big-endian byte encoding.
The source writes `b[i] = n % 256; n = n >> 8` from the highest index down;
Python `%`/`>>` on ints follow the floor convention, which for the positive
modulus 256 coincides with Lean's euclidean `%` and `/` on `Int`. -/
def to_be (n : Int) (size : Nat) : List Nat :=
  match size with
  | 0 => []
  | k + 1 => to_be (n / 256) k ++ [(n % 256).toNat]

/-- `from_be(b)` from pyindi-stellarium.py: big-endian byte decoding. -/
def from_be (b : List Nat) : Nat :=
  b.foldl (fun n x => n * 256 + x) 0

/-- `to_le(n, size)` from pyindi-stellarium.py: little-endian byte encoding
(`b[i] = n % 256; n = n >> 8` for i = 0 .. size-1). -/
def to_le (n : Int) (size : Nat) : List Nat :=
  match size with
  | 0 => []
  | k + 1 => (n % 256).toNat :: to_le (n / 256) k

/-- `from_le(b)` from pyindi-stellarium.py: little-endian byte decoding
(`n = (n << 8) + b[i]` for i = len-1 .. 0). -/
def from_le (b : List Nat) : Nat :=
  b.foldr (fun x n => n * 256 + x) 0

/-- Python `int(q)` on a float: truncation toward zero. -/
def pyInt (q : ℚ) : Int :=
  if q < 0 then ⌈q⌉ else ⌊q⌋

/-- RA decoding in `StelClient.datareceived`:
`targetra = (targetraint * 24.0) / 4294967296.0`. -/
def stelDecodeRa (x : Nat) : ℚ :=
  (x * 24 : ℚ) / 4294967296

/-- Signed reinterpretation of the 32-bit declination field in
`StelClient.datareceived`:
`if targetdecint > (4294967296 / 2): targetdecint = -(4294967296 - targetdecint)`. -/
def stelFoldDec (y : Nat) : Int :=
  if (2147483648 : Int) < (y : Int) then -((4294967296 : Int) - (y : Int)) else (y : Int)

/-- Dec decoding in `StelClient.datareceived`:
`targetdec = (targetdecint * 360.0) / 4294967296.0` after the signed fold. -/
def stelDecodeDec (y : Nat) : ℚ :=
  ((stelFoldDec y : Int) : ℚ) * 360 / 4294967296

/-- The frame-scanning loop of `StelClient.datareceived`, with explicit fuel:
the source loop `while p < self.recv - 2` advances `p += psize`, so a frame
declaring `psize = 0` loops forever; fuel exhaustion (`none`) models that.
Note the completeness check compares the declared size against
`len(self.readbuf)` (the buffer's length, not the count `recv` of received
bytes), exactly as in the source. The `micros` timestamp field is read only to
log a clock-skew warning and is omitted here. Returns `(p, queued gotos)`. -/
def datareceivedLoop (readbuf : List Nat) (recv : Nat) :
    Nat → Nat → List (ℚ × ℚ) → Option (Nat × List (ℚ × ℚ))
  | 0, _, _ => none
  | fuel + 1, p, gotos =>
    if p + 2 < recv then
      let psize := from_le (pySlice readbuf p (p + 2))
      if (psize : Int) > (readbuf.length : Int) - (p : Int) then
        some (p, gotos)
      else
        let ptype := from_le (pySlice readbuf (p + 2) (p + 4))
        if ptype = 0 then
          let x := from_le (pySlice readbuf (p + 12) (p + 16))
          let y := from_le (pySlice readbuf (p + 16) (p + 20))
          datareceivedLoop readbuf recv fuel (p + psize)
            (gotos ++ [(stelDecodeRa x, stelDecodeDec y)])
        else
          datareceivedLoop readbuf recv fuel (p + psize) gotos
    else
      some (p, gotos)

/-- `StelClient.datareceived`: scan the read buffer for complete frames from
offset 0, queueing a goto request for each type-0 frame, and return the number
of consumed bytes (which `performRead` then drops from the front of the
buffer). Fuel `recv + 1` covers every terminating run of the source loop. -/
def datareceived (readbuf : List Nat) (recv : Nat) : Option (Nat × List (ℚ × ℚ)) :=
  datareceivedLoop readbuf recv (recv + 1) 0 []

/-- RA re-encoding in `StelClient.sendEqCoords`:
`int(math.floor(rajnow * (4294967296.0 / 24.0)))`. -/
def encodeRaInt (rajnow : ℚ) : Int :=
  ⌊rajnow * (4294967296 / 24 : ℚ)⌋

/-- Dec re-encoding in `StelClient.sendEqCoords`:
`int(math.floor(decjnow * (4294967296.0 / 360.0)))`. -/
def encodeDecInt (decjnow : ℚ) : Int :=
  ⌊decjnow * (4294967296 / 360 : ℚ)⌋

/-- The 24-byte coordinate frame built by `StelClient.sendEqCoords`:
`[len=24:2][type=0:2][tstamp:8][ra:4][dec:4][status:4]`, all little-endian. -/
def sendEqCoordsMsg (tstamp : Int) (rajnow decjnow : ℚ) (status : Int) : List Nat :=
  to_le 24 2 ++ to_le 0 2 ++ to_le tstamp 8 ++
  to_le (encodeRaInt rajnow) 4 ++ to_le (encodeDecInt decjnow) 4 ++ to_le status 4

/-!
Support layer for the SynScan bridge: Python's `datetime` calendar arithmetic,
`int()` / `int(_, 16)` parsing, `hex()` formatting and `struct.pack` range
checking, each modelled as an executable total function.
-/

/-- Gregorian leap-year test, as used by Python's `datetime`. -/
def isLeap (y : Nat) : Bool :=
  y % 4 == 0 && (y % 100 != 0 || y % 400 == 0)

/-- Days in a month of the proleptic Gregorian calendar. -/
def daysInMonth (y m : Nat) : Nat :=
  if m = 2 then (if isLeap y then 29 else 28)
  else if m = 4 ∨ m = 6 ∨ m = 9 ∨ m = 11 then 30
  else 31

/-- A Python `datetime.datetime` value (date and time fields; microseconds are
always zero in the bridge and are omitted). -/
structure PyDateTime where
  year : Nat
  month : Nat
  day : Nat
  hour : Nat
  minute : Nat
  second : Nat
deriving DecidableEq, Repr

/-- `datetime.datetime(y, m, d, h, mi, s)`: raises `ValueError` unless every
field is within the documented ranges (year 1..9999, month 1..12, day within
the month, hour ≤ 23, minute/second ≤ 59). -/
def mkDateTime (y m d h mi s : Nat) : Except Unit PyDateTime :=
  if 1 ≤ y ∧ y ≤ 9999 ∧ 1 ≤ m ∧ m ≤ 12 ∧ 1 ≤ d ∧ d ≤ daysInMonth y m ∧
      h ≤ 23 ∧ mi ≤ 59 ∧ s ≤ 59 then
    .ok ⟨y, m, d, h, mi, s⟩
  else .error ()

/-- Julian day number of a proleptic Gregorian date (valid for year ≥ 1). -/
def jdn (y m d : Nat) : Nat :=
  let a := (14 - m) / 12
  let y2 := y + 4800 - a
  let m2 := m + 12 * a - 3
  d + (153 * m2 + 2) / 5 + 365 * y2 + y2 / 4 - y2 / 100 + y2 / 400 - 32045

/-- Absolute second count of a datetime (relative to the Julian-day epoch). -/
def dtToSecs (dt : PyDateTime) : Int :=
  (jdn dt.year dt.month dt.day : Int) * 86400 +
    (dt.hour : Int) * 3600 + (dt.minute : Int) * 60 + (dt.second : Int)

/-- Smallest representable second count (`datetime.min` = 0001-01-01T00:00:00). -/
def dtSecsMin : Nat := jdn 1 1 1 * 86400

/-- Largest representable second count (`datetime.max`, to second precision). -/
def dtSecsMax : Nat := jdn 9999 12 31 * 86400 + 86399

/-- Proleptic Gregorian date of a Julian day number (standard inverse of `jdn`,
meaningful for day numbers inside the `datetime` range). -/
def civilFromJdn (j : Nat) : Nat × Nat × Nat :=
  let a := j + 32044
  let b := (4 * a + 3) / 146097
  let c := a - 146097 * b / 4
  let dd := (4 * c + 3) / 1461
  let e := c - 1461 * dd / 4
  let m := (5 * e + 2) / 153
  let day := e - (153 * m + 2) / 5 + 1
  let month := m + 3 - 12 * (m / 10)
  let year := 100 * b + dd - 4800 + m / 10
  (year, month, day)

/-- Datetime value of an absolute second count inside the `datetime` range. -/
def dtFromSecs (t : Nat) : PyDateTime :=
  let days := t / 86400
  let sod := t % 86400
  let c := civilFromJdn days
  ⟨c.1, c.2.1, c.2.2, sod / 3600, sod % 3600 / 60, sod % 60⟩

/-- `dt + datetime.timedelta(seconds=s)`: shifts the datetime, raising
`OverflowError` when the result leaves the representable range. -/
def dtAddSecs (dt : PyDateTime) (s : Int) : Except Unit PyDateTime :=
  let t := dtToSecs dt + s
  if (dtSecsMin : Int) ≤ t ∧ t ≤ (dtSecsMax : Int) then
    .ok (dtFromSecs t.toNat)
  else .error ()

/-- Numeric value of a decimal digit character. -/
def digitVal (c : Char) : Nat := c.toNat - 48

/-- Take up to `n` leading decimal digits from a character list. -/
def takeDigits : Nat → List Char → List Nat × List Char
  | 0, cs => ([], cs)
  | _ + 1, [] => ([], [])
  | n + 1, c :: cs =>
    if c.isDigit then
      let p := takeDigits n cs
      (digitVal c :: p.1, p.2)
    else ([], c :: cs)

/-- Value of a list of decimal digits. -/
def digitsToNat (ds : List Nat) : Nat :=
  ds.foldl (fun a d => a * 10 + d) 0

/-- Parse a numeric field of at most `maxW` and at least `minW` digits. -/
def parseField (maxW minW : Nat) (cs : List Char) : Except Unit (Nat × List Char) :=
  let p := takeDigits maxW cs
  if p.1.length < minW ∨ p.1.length = 0 then .error () else .ok (digitsToNat p.1, p.2)

/-- Expect one specific character. -/
def expectChar (c : Char) : List Char → Except Unit (List Char)
  | x :: r => if x = c then .ok r else .error ()
  | [] => .error ()

/-- `datetime.datetime.strptime(s, "%Y-%m-%dT%H:%M:%S")`: a 4-digit year and
1-2 digit remaining fields with fixed separators, validated by the `datetime`
constructor; any leftover input raises `ValueError`. -/
def strptimeIso (s : String) : Except Unit PyDateTime := do
  let p1 ← parseField 4 4 s.data
  let r ← expectChar '-' p1.2
  let p2 ← parseField 2 1 r
  let r ← expectChar '-' p2.2
  let p3 ← parseField 2 1 r
  let r ← expectChar 'T' p3.2
  let p4 ← parseField 2 1 r
  let r ← expectChar ':' p4.2
  let p5 ← parseField 2 1 r
  let r ← expectChar ':' p5.2
  let p6 ← parseField 2 1 r
  if p6.2 ≠ [] then .error ()
  else mkDateTime p1.1 p2.1 p3.1 p4.1 p5.1 p6.1

/-- Python `int(s)` on a decimal string: optional surrounding whitespace, an
optional sign, then at least one digit (digit-group underscores and non-ASCII
digits, which the bridge never receives, are not modelled). -/
def pyParseInt (s : String) : Except Unit Int :=
  let cs := s.data.dropWhile (fun c => c.isWhitespace)
  let sp : Bool × List Char :=
    match cs with
    | '-' :: r => (true, r)
    | '+' :: r => (false, r)
    | r => (false, r)
  let p := takeDigits sp.2.length sp.2
  if p.1 = [] ∨ p.2.dropWhile (fun c => c.isWhitespace) ≠ [] then .error ()
  else .ok (if sp.1 then -(digitsToNat p.1 : Int) else (digitsToNat p.1 : Int))

/-- Hex-digit value of an ASCII byte. -/
def hexDigitVal (b : Nat) : Option Nat :=
  if 48 ≤ b ∧ b ≤ 57 then some (b - 48)
  else if 97 ≤ b ∧ b ≤ 102 then some (b - 87)
  else if 65 ≤ b ∧ b ≤ 70 then some (b - 55)
  else none

/-- Take leading hex digits from a byte list. -/
def takeHex : List Nat → List Nat × List Nat
  | [] => ([], [])
  | b :: r =>
    match hexDigitVal b with
    | some d =>
      let p := takeHex r
      (d :: p.1, p.2)
    | none => ([], b :: r)

/-- ASCII whitespace bytes accepted by Python's `int`. -/
def isSpaceByte (b : Nat) : Bool :=
  b == 32 || b == 9 || b == 10 || b == 13 || b == 11 || b == 12

/-- Python `int(bs, 16)` on an ASCII byte string: optional whitespace, optional
sign, optional `0x`/`0X` prefix, then at least one hex digit; anything else
raises `ValueError` (underscore digit grouping is not modelled). -/
def pyIntHex (bs : List Nat) : Except Unit Int :=
  let cs := bs.dropWhile isSpaceByte
  let sp : Bool × List Nat :=
    match cs with
    | 45 :: r => (true, r)
    | 43 :: r => (false, r)
    | r => (false, r)
  let body : List Nat :=
    match sp.2 with
    | 48 :: 120 :: r => r
    | 48 :: 88 :: r => r
    | r => r
  let p := takeHex body
  if p.1 = [] ∨ p.2.dropWhile isSpaceByte ≠ [] then .error ()
  else
    let v : Nat := p.1.foldl (fun a d => a * 16 + d) 0
    .ok (if sp.1 then -(v : Int) else (v : Int))

/-- ASCII codes of the lowercase hex digits of `n` (`Nat.toDigits 16` is what
Python's `hex` prints after the `0x` prefix). -/
def natHexChars (n : Nat) : List Nat :=
  (Nat.toDigits 16 n).map Char.toNat

/-- Python `hex(n)` as an ASCII byte string (`0x…`, or `-0x…` for negatives). -/
def pyHex (n : Int) : List Nat :=
  if n < 0 then [45, 48, 120] ++ natHexChars (-n).toNat
  else [48, 120] ++ natHexChars n.toNat

/-- Python `str.zfill(w)`: left-pad with `0` to width `w`, keeping a leading
sign character in place. -/
def zfill (w : Nat) (s : List Nat) : List Nat :=
  if w ≤ s.length then s
  else
    match s with
    | [] => List.replicate w 48
    | c :: rest =>
      if c = 43 ∨ c = 45 then c :: (List.replicate (w - s.length) 48 ++ rest)
      else List.replicate (w - s.length) 48 ++ (c :: rest)

/-- Python `str.upper()` on an ASCII byte. -/
def upperByte (c : Nat) : Nat :=
  if 97 ≤ c ∧ c ≤ 122 then c - 32 else c

/-- The SynScan hex coordinate field of the `e`/`E` handlers:
`hex(n)[2:].zfill(6).upper() + "00"`. -/
def hexField (n : Int) : List Nat :=
  (zfill 6 ((pyHex n).drop 2)).map upperByte ++ [48, 48]

/-- `struct.pack("B"*len, …)`: each value must be in 0..255, else
`struct.error` is raised. -/
def packBytes (vs : List Int) : Except Unit (List Nat) :=
  if vs.all (fun v => decide (0 ≤ v ∧ v ≤ 255)) then .ok (vs.map Int.toNat)
  else .error ()

/-- One pass of the goto-queue consumer in the Stellarium bridge's main loop
(`if isIndiTelescopeConnected: ... if len(gotoQueue) > 0: send gotoQueue[0];
gotoQueue = gotoQueue[1:]`). Returns the queue after the iteration and the
list of requests issued to the INDI adapter during it. -/
def mainLoopGotoStep (connected : Bool) (q : List (ℚ × ℚ)) :
    List (ℚ × ℚ) × List (ℚ × ℚ) :=
  if connected then
    match q with
    | [] => ([], [])
    | g :: rest => (rest, [g])
  else (q, [])

/-!
SynScan bridge (`examples/pyindi-synscan.py`).

Retry accessors: `getNumberWithRetry`, `getSwitchWithRetry` and
`getTextWithRetry` are three textually identical functions differing only in
the device call (`getNumber`/`getSwitch`/`getText`) and the module-level
failure set they thread (`numberFailures`/`switchFailures`/`textFailures`).
They are embedded once as `getPropWithRetry`; the validity of the successive
device fetch attempts is a function of the attempt index, the failure set is a
duplicate-free list passed in and returned, and the number of executed
`time.sleep(delay)` calls is returned so that "no retry delay" is provable.
-/

/-- The retry loop shared by the three accessors, recursing on the remaining
`ntry` count; `attempt` indexes the successive `device.get*` calls. Returns
(result, updated failure set, number of sleeps performed). -/
def getPropWithRetryAux (valid : Nat → Bool) (failures : List String)
    (prop : String) : Nat → Nat → Option Unit × List String × Nat
  | _, 0 =>
    (none, if prop ∈ failures then failures else prop :: failures, 0)
  | attempt, n + 1 =>
    if valid attempt then (some (), failures.erase prop, 0)
    else if prop ∈ failures then (none, failures, 0)
    else
      let r := getPropWithRetryAux valid failures prop (attempt + 1) n
      (r.1, r.2.1, r.2.2 + 1)

/-- A retry accessor call with `ntry` attempts (source default 5). -/
def getPropWithRetry (valid : Nat → Bool) (failures : List String)
    (prop : String) (ntry : Nat := 5) : Option Unit × List String × Nat :=
  getPropWithRetryAux valid failures prop 0 ntry

/-- `getNumberWithRetry` (threads `numberFailures`). -/
def getNumberWithRetry (valid : Nat → Bool) (failures : List String)
    (prop : String) (ntry : Nat := 5) : Option Unit × List String × Nat :=
  getPropWithRetry valid failures prop ntry

/-- `getSwitchWithRetry` (threads `switchFailures`). -/
def getSwitchWithRetry (valid : Nat → Bool) (failures : List String)
    (prop : String) (ntry : Nat := 5) : Option Unit × List String × Nat :=
  getPropWithRetry valid failures prop ntry

/-- `getTextWithRetry` (threads `textFailures`). -/
def getTextWithRetry (valid : Nat → Bool) (failures : List String)
    (prop : String) (ntry : Nat := 5) : Option Unit × List String × Nat :=
  getPropWithRetry valid failures prop ntry

/-- Environment of one `process_command` call: the INDI connection flags and,
for each INDI property the handlers touch, the outcome its retry accessor
would deliver (`none` = accessor returned `None`). Number values are the
property element values as rationals, switch properties are their element
states (`true` = `ISS_ON`), text properties are their element strings. -/
structure SynEnv where
  /-- `indiclient.isconnected`. -/
  isconnected : Bool
  /-- `device` is not `None`. -/
  hasDevice : Bool
  /-- `device.isConnected()`. -/
  deviceConnected : Bool
  /-- `EQUATORIAL_EOD_COORD` number property: (RA hours, Dec degrees). -/
  eqCoord : Option (ℚ × ℚ)
  /-- `EQUATORIAL_EOD_COORD` state is `IPS_BUSY`. -/
  eqBusy : Bool
  /-- `TIME_UTC` text property: (`p[0]` ISO time, `p[1]` offset). -/
  timeUtc : Option (String × String)
  /-- `MOUNTINFORMATION` text property: `p[0]`. -/
  mountInfo : Option String
  /-- `GEOGRAPHIC_COORD` number property: (lat, long, elevation). -/
  geoCoord : Option (ℚ × ℚ × ℚ)
  /-- `ON_COORD_SET` switch property is available. -/
  onCoordSet : Option Unit
  /-- `TELESCOPE_ABORT_MOTION` switch property is available. -/
  abortMotion : Option Unit
  /-- `TELESCOPE_MOTION_WE` switch property is available. -/
  motionWE : Option Unit
  /-- `TELESCOPE_MOTION_NS` switch property is available. -/
  motionNS : Option Unit
  /-- `TELESCOPE_SLEW_RATE` switch property: its element names, in order. -/
  slewRate : Option (List String)
  /-- `TELESCOPE_PIER_SIDE` switch property: its element states. -/
  pierSide : Option (List Bool)
  /-- `TELESCOPE_TRACK_RATE` switch property: its element states. -/
  trackRate : Option (List Bool)

/-- The INDI property updates `process_command` sends with
`indiclient.sendNewProperty`, in order. -/
inductive PropWrite where
  /-- `H`: `TIME_UTC` with `p[0] = utc.isoformat()`, `p[1] = str(offset)`. -/
  | timeUtc (utc : PyDateTime) (offset : Int) : PropWrite
  /-- `W`: `GEOGRAPHIC_COORD` with the decoded latitude and longitude. -/
  | geoCoord (lat long : ℚ) : PropWrite
  /-- `r`/`R`/`s`/`S`: `ON_COORD_SET` with the goto (index 0) or sync
  (index 2) switch selected. -/
  | coordSet (gotoMode : Bool) : PropWrite
  /-- `r`/`R`/`s`/`S`: `EQUATORIAL_EOD_COORD` target values. -/
  | eqTarget (ra dec : ℚ) : PropWrite
  /-- `M`: `TELESCOPE_ABORT_MOTION` with the abort switch on. -/
  | abortMotion : PropWrite
  /-- `P` with rate 0: the motion property (`we` = `TELESCOPE_MOTION_WE`)
  reset to all-off. -/
  | motionReset (we : Bool) : PropWrite
  /-- `P`: `TELESCOPE_SLEW_RATE` with the named switch selected. -/
  | slewRate (chosen : String) : PropWrite
  /-- `P`: the motion property with the positive or negative switch on. -/
  | motion (we positive : Bool) : PropWrite
  /-- `T`: `TELESCOPE_TRACK_RATE` reset to all-off. -/
  | trackReset : PropWrite
deriving DecidableEq, Repr

/-- Result of dispatching one opcode at buffer index `j` (the position just
after the opcode byte): a raised Python exception, an early `return` of the
accumulated reply plus the given fragment, or a normal continuation carrying
the reply fragment, the property writes and the next read index. -/
inductive StepRes where
  | err : StepRes
  | ret (frag : List Nat) : StepRes
  | cont (frag : List Nat) (writes : List PropWrite) (next : Nat) : StepRes
deriving DecidableEq, Repr

/-- `e`/`E` handler: read RA/Dec and reply with hex-encoded coordinates. -/
def handlerGetRaDec (env : SynEnv) (cmd j : Nat) : StepRes :=
  match env.eqCoord with
  | none => .cont [35] [] j
  | some rd =>
    let radeg : ℚ := rd.1 * 360 / 24
    let decdeg : ℚ := if rd.2 < 0 then 360 + rd.2 else rd.2
    let rahex := hexField (pyInt (radeg * 2 ^ 24 / 360))
    let dechex := hexField (pyInt (decdeg * 2 ^ 24 / 360))
    if cmd = 101 then .cont (rahex ++ [44] ++ dechex ++ [35]) [] j
    else .cont (rahex.take 4 ++ [44] ++ dechex.take 4 ++ [35]) [] j

/-- Evaluate a fallible Python subexpression and continue with its value; the
raised exception (`Except.error`) aborts the whole `process_command` call. -/
def exceptCont (e : Except Unit α) (mk : α → StepRes) : StepRes :=
  match e with
  | .error _ => .err
  | .ok a => mk a

/-- Index into a Python sequence and continue with the element; a position
past the end raises `IndexError`, aborting the call. -/
def idxCont (o : Option α) (mk : α → StepRes) : StepRes :=
  match o with
  | none => .err
  | some a => mk a

/-- `h` handler: read `TIME_UTC`, parse the ISO string and the offset, shift
by the offset, wrap a negative offset byte, and reply with 8 packed bytes. -/
def handlerGetTime (env : SynEnv) (j : Nat) : StepRes :=
  match env.timeUtc with
  | none => .cont [35] [] j
  | some t =>
    exceptCont (strptimeIso t.1) (fun utc0 =>
      exceptCont (if t.2 ≠ "" then pyParseInt t.2 else .ok 0) (fun off =>
        exceptCont (dtAddSecs utc0 (3600 * off)) (fun utc =>
          let off2 : Int := if off < 0 then 256 - off else off
          exceptCont (packBytes [(utc.hour : Int), (utc.minute : Int),
              (utc.second : Int), (utc.month : Int), (utc.day : Int),
              (utc.year : Int) - 2000, off2, 0])
            (fun bs => .cont (bs ++ [35]) [] j))))

/-- The fixed mount-model table of the `m` handler; unknown models map to the
`EQ6` code 0. -/
def modelCode (s : String) : Nat :=
  if s = "EQ6" then 0
  else if s = "HEQ5" then 1
  else if s = "EQ5" then 2
  else if s = "EQ3" then 3
  else if s = "EQ8" then 4
  else if s = "AZ-EQ6" then 5
  else if s = "AZ-EQ5" then 6
  else 0

/-- `m` handler: reply with the mount model byte, or `!` when the
`MOUNTINFORMATION` property is unavailable. -/
def handlerMountModel (env : SynEnv) (j : Nat) : StepRes :=
  match env.mountInfo with
  | none => .cont [33, 35] [] j
  | some name => .cont [modelCode name, 35] [] j

/-- `w` handler: read `GEOGRAPHIC_COORD` and reply with packed
degrees/minutes/seconds plus hemisphere bytes for latitude and longitude. -/
def handlerGetLocation (env : SynEnv) (j : Nat) : StepRes :=
  match env.geoCoord with
  | none => .cont [35] [] j
  | some g =>
    let latd : Nat := if g.1 < 0 then 1 else 0
    let latdeg : ℚ := if g.1 < 0 then -g.1 else g.1
    let lata := pyInt latdeg
    let lf1 : ℚ := latdeg - (lata : ℚ)
    let latb := pyInt (lf1 * 60)
    let lf2 : ℚ := lf1 * 60 - (latb : ℚ)
    let latc := pyInt (lf2 * 60)
    let long1 : ℚ := if g.2.1 > 180 then g.2.1 - 360 else g.2.1
    let longh : Nat := if long1 < 0 then 1 else 0
    let longdeg : ℚ := if long1 < 0 then -long1 else long1
    let longe := pyInt longdeg
    let gf1 : ℚ := longdeg - (longe : ℚ)
    let longf := pyInt (gf1 * 60)
    let gf2 : ℚ := gf1 * 60 - (longf : ℚ)
    let longg := pyInt (gf2 * 60)
    exceptCont (packBytes [lata, latb, latc]) (fun latBytes =>
      exceptCont (packBytes [longe, longf, longg]) (fun longBytes =>
        .cont (latBytes ++ [latd] ++ longBytes ++ [longh] ++ [35]) [] j))

/-- Wrapping of the offset byte in the `H` handler:
`if offset < 0: offset = 256 - offset`. -/
def hOffsetUnwrap (offset : Int) : Int :=
  if offset < 0 then 256 - offset else offset

/-- `H` handler: unpack 8 time bytes, build the local datetime, subtract the
offset as hours, and write `TIME_UTC`; fewer than 8 remaining bytes raises
`ValueError` from unpacking, invalid date fields raise from the `datetime`
constructor. -/
def handlerSetTime (env : SynEnv) (buf : List Nat) (j : Nat) : StepRes :=
  match pySlice buf j (j + 8) with
  | [h, mi, s, mth, d, y, offset, _dst] =>
    let y2 := y + 2000
    let off2 := hOffsetUnwrap (offset : Int)
    exceptCont (mkDateTime y2 mth d h mi s) (fun lt =>
      exceptCont (dtAddSecs lt (-(3600 * off2))) (fun utc =>
        match env.timeUtc with
        | none => .cont [35] [] (j + 8)
        | some _ => .cont [35] [.timeUtc utc off2] (j + 8)))
  | _ => .err

/-- `W` handler: unpack 8 location bytes, rebuild decimal latitude/longitude
and write `GEOGRAPHIC_COORD`. -/
def handlerSetLocation (env : SynEnv) (buf : List Nat) (j : Nat) : StepRes :=
  match pySlice buf j (j + 8) with
  | [d0, d1, d2, d3, d4, d5, d6, d7] =>
    let lat0 : ℚ := (d0 : ℚ) + (d1 : ℚ) / 60 + (d2 : ℚ) / 3600
    let lat : ℚ := if d3 = 1 then -lat0 else lat0
    let long0 : ℚ := (d4 : ℚ) + (d5 : ℚ) / 60 + (d6 : ℚ) / 3600
    let long : ℚ := if d7 = 1 then 360 - long0 else long0
    match env.geoCoord with
    | none => .cont [35] [] (j + 8)
    | some _ => .cont [35] [.geoCoord lat long] (j + 8)
  | _ => .err

/-- Common tail of the goto/sync handlers: set the target coordinates, select
the goto or sync switch on `ON_COORD_SET`, and send both properties. -/
def gotoCore (env : SynEnv) (ingoto : Bool) (rahour decdeg0 : ℚ) (next : Nat) : StepRes :=
  let decdeg : ℚ := if decdeg0 ≥ 270 then decdeg0 - 360 else decdeg0
  match env.eqCoord with
  | none => .cont [35] [] next
  | some _ =>
    match env.onCoordSet with
    | none => .cont [35] [] next
    | some _ => .cont [35] [.coordSet ingoto, .eqTarget rahour decdeg] next

/-- `r`/`R`/`s`/`S` handler: parse 32-bit (`r`/`s`, 17 payload bytes) or
16-bit (`R`/`S`, 9 payload bytes) hex coordinates and run a goto or sync. -/
def handlerGoto (env : SynEnv) (buf : List Nat) (cmd j : Nat) : StepRes :=
  let ingoto := cmd = 114 ∨ cmd = 82
  if cmd = 114 ∨ cmd = 115 then
    exceptCont (pyIntHex (pySlice buf j (j + 8))) (fun ra =>
      exceptCont (pyIntHex (pySlice buf (j + 9) (j + 17))) (fun de =>
        gotoCore env ingoto ((ra : ℚ) * 24 / 2 ^ 32) ((de : ℚ) * 360 / 2 ^ 32) (j + 17)))
  else
    exceptCont (pyIntHex (pySlice buf j (j + 4))) (fun ra =>
      exceptCont (pyIntHex (pySlice buf (j + 5) (j + 9))) (fun de =>
        gotoCore env ingoto ((ra : ℚ) * 24 / 2 ^ 16) ((de : ℚ) * 360 / 2 ^ 16) (j + 9)))

/-- `L` handler: reply `1#` when the coordinate property is busy, else `0#`. -/
def handlerInGoto (env : SynEnv) (j : Nat) : StepRes :=
  match env.eqCoord with
  | none => .cont [35] [] j
  | some _ =>
    if env.eqBusy then .cont [49, 35] [] j else .cont [48, 35] [] j

/-- `M` handler: when busy, fire the abort-motion switch; always reply `#`. -/
def handlerAbort (env : SynEnv) (j : Nat) : StepRes :=
  match env.eqCoord with
  | none => .cont [35] [] j
  | some _ =>
    if env.eqBusy then
      match env.abortMotion with
      | none => .cont [35] [] j
      | some _ => .cont [35] [.abortMotion] j
    else .cont [35] [] j

/-- Slew-rate switch selection of the `P` handler: the switch for the SynScan
rate tier when the property has it, else the property's last switch. -/
def chooseSlew (names : List String) (rate : Nat) : String :=
  if rate = 1 ∧ "SLEW_GUIDE" ∈ names then "SLEW_GUIDE"
  else if 2 ≤ rate ∧ rate ≤ 4 ∧ "SLEW_CENTERING" ∈ names then "SLEW_CENTERING"
  else if 5 ≤ rate ∧ rate ≤ 7 ∧ "SLEW_FIND" ∈ names then "SLEW_FIND"
  else if 8 ≤ rate ∧ rate ≤ 9 ∧ "SLEW_MAX" ∈ names then "SLEW_MAX"
  else names.getLastD ""

/-- `P` handler: directional slew start/stop over 7 payload bytes; only rate
mode 2 is supported; rate 0 stops motion, other rates select a slew-rate tier
and a motion direction. Out-of-range accesses into a short payload raise
`IndexError`. -/
def handlerMove (env : SynEnv) (buf : List Nat) (j : Nat) : StepRes :=
  let data := pySlice buf j (j + 7)
  idxCont (data.get? 0) (fun d0 =>
    if d0 ≠ 2 then .cont [35] [] (j + 7)
    else idxCont (data.get? 1) (fun d1 =>
      match (if d1 = 16 then env.motionWE else env.motionNS) with
      | none => .cont [35] [] (j + 7)
      | some _ =>
        idxCont (data.get? 3) (fun rate =>
          if rate = 0 then .cont [35] [.motionReset (d1 = 16)] (j + 7)
          else
            match env.slewRate with
            | none => .cont [35] [] (j + 7)
            | some names =>
              if names.length < 1 then .cont [35] [] (j + 7)
              else idxCont (data.get? 2) (fun d2 =>
                .cont [35] [.slewRate (chooseSlew names rate),
                  .motion (d1 = 16) (d2 = 36)] (j + 7)))))

/-- `p` handler: reply `E#` when the first pier-side switch is on, else `W#`. -/
def handlerPierSide (env : SynEnv) (j : Nat) : StepRes :=
  match env.pierSide with
  | none => .cont [35] [] j
  | some states =>
    idxCont (states.get? 0) (fun s0 =>
      .cont ((if s0 then [69] else [87]) ++ [35]) [] j)

/-- `any(p[n].getState() == PyIndi.ISS_ON for n in range(4))`: short-circuit
scan of the first four switch states, raising `IndexError` when the scan
walks past the end before finding an on state. -/
def anyOn4 (l : List Bool) : Except Unit Bool :=
  match l.get? 0 with
  | none => .error ()
  | some true => .ok true
  | some false =>
    match l.get? 1 with
    | none => .error ()
    | some true => .ok true
    | some false =>
      match l.get? 2 with
      | none => .error ()
      | some true => .ok true
      | some false =>
        match l.get? 3 with
        | none => .error ()
        | some b => .ok b

/-- `t` handler: reply `2#` when any of the first four tracking-rate switches
is on, else `0#`. -/
def handlerGetTracking (env : SynEnv) (j : Nat) : StepRes :=
  match env.trackRate with
  | none => .cont [35] [] j
  | some states =>
    exceptCont (anyOn4 states) (fun b =>
      if b then .cont [50, 35] [] j else .cont [48, 35] [] j)

/-- `T` handler: set tracking mode. For modes `2`/`3` with the first rate
switch off, the source evaluates the undefined name `ON`
(`p[0].setState(ON)`), raising `NameError`; that path is `.err`. -/
def handlerSetTracking (env : SynEnv) (buf : List Nat) (j : Nat) : StepRes :=
  idxCont (buf.get? j) (fun mode =>
    match env.trackRate with
    | none => .cont [35] [] (j + 1)
    | some states =>
      if mode = 50 ∨ mode = 51 then
        idxCont (states.get? 0) (fun s0 =>
          if s0 then .cont [35] [] (j + 1)
          else .err)
      else
        exceptCont (anyOn4 states) (fun b =>
          if b then .cont [35] [.trackReset] (j + 1) else .cont [35] [] (j + 1)))

/-- The opcode bytes `process_command` recognizes; any other byte reaches the
final `else` branch. -/
def knownOpcodes : List Nat :=
  [0, 35, 75, 74, 101, 69, 104, 109, 119, 86, 72, 87, 114, 82, 115, 83,
   76, 77, 80, 112, 116, 84]

/-- Dispatch of one opcode of `process_command`. `cmd` is the opcode byte
read at index `j - 1`; `j` is the read index after it (`i` in the source,
after `i += 1`). The branch order mirrors the source `if`/`elif` chain; in
particular `\x00`, `#` and `K` are handled before the device-connectivity
check, which `return`s the accumulated reply plus one error token. -/
def synDispatch (env : SynEnv) (buf : List Nat) (cmd j : Nat) : StepRes :=
  if cmd = 0 then .cont [] [] j
  else if cmd = 35 then .cont [35] [] j
  else if cmd = 75 then
    if env.isconnected then .cont (pySlice buf j (j + 1) ++ [35]) [] (j + 1)
    else .cont [35] [] (j + 1)
  else if ¬env.hasDevice ∨ ¬env.isconnected ∨ ¬env.deviceConnected then
    .ret [35]
  else if cmd = 74 then .cont [1, 35] [] j
  else if cmd = 101 ∨ cmd = 69 then handlerGetRaDec env cmd j
  else if cmd = 104 then handlerGetTime env j
  else if cmd = 109 then handlerMountModel env j
  else if cmd = 119 then handlerGetLocation env j
  else if cmd = 86 then .cont [48, 51, 50, 53, 48, 55] [] j
  else if cmd = 72 then handlerSetTime env buf j
  else if cmd = 87 then handlerSetLocation env buf j
  else if cmd = 114 ∨ cmd = 82 ∨ cmd = 115 ∨ cmd = 83 then handlerGoto env buf cmd j
  else if cmd = 76 then handlerInGoto env j
  else if cmd = 77 then handlerAbort env j
  else if cmd = 80 then handlerMove env buf j
  else if cmd = 112 then handlerPierSide env j
  else if cmd = 116 then handlerGetTracking env j
  else if cmd = 84 then handlerSetTracking env buf j
  else .cont [35] [] (j + 1)

/-- The `while i < len(buf)` loop of `process_command`, by fuel; `none` would
mean fuel exhaustion (shown impossible below whenever `fuel > len buf - i`).
A normal run yields the reply byte string and the ordered property writes;
`Except.error` is a Python exception escaping `process_command`. -/
def processCommandAux (env : SynEnv) (buf : List Nat) :
    Nat → Nat → Option (Except Unit (List Nat × List PropWrite))
  | 0, _ => none
  | fuel + 1, i =>
    if h : i < buf.length then
      match synDispatch env buf (buf.get ⟨i, h⟩) (i + 1) with
      | .err => some (.error ())
      | .ret frag => some (.ok (frag, []))
      | .cont frag ws next =>
        match processCommandAux env buf fuel next with
        | none => none
        | some (.error _) => some (.error ())
        | some (.ok rw) => some (.ok (frag ++ rw.1, ws ++ rw.2))
    else some (.ok ([], []))

/-- `process_command(buf, indiclient, logger)`. -/
def processCommand (env : SynEnv) (buf : List Nat) :
    Option (Except Unit (List Nat × List PropWrite)) :=
  processCommandAux env buf (buf.length + 1) 0

deriving instance DecidableEq for Except

/-- A fully connected environment with every queried property available,
used to evaluate `process_command` at concrete inputs. -/
def envConn : SynEnv where
  isconnected := true
  hasDevice := true
  deviceConnected := true
  eqCoord := some (6, 45)
  eqBusy := false
  timeUtc := some ("2024-06-01T10:00:00", "2")
  mountInfo := some "HEQ5"
  geoCoord := some (48, 2, 100)
  onCoordSet := some ()
  abortMotion := some ()
  motionWE := some ()
  motionNS := some ()
  slewRate := some ["SLEW_GUIDE", "SLEW_CENTERING", "SLEW_FIND", "SLEW_MAX"]
  pierSide := some [true, false]
  trackRate := some [false, false, false, false]

/-- The same environment with the INDI device reported disconnected
(`device.isConnected()` false while the server link is up). -/
def envDisc : SynEnv :=
  { envConn with deviceConnected := false }

/-- A dispatch result whose reply fragment is properly terminated: an early
return ends in `#`, and a continued fragment is empty or ends in `#`. -/
def stepTerm : StepRes → Prop
  | .err => True
  | .ret frag => frag.getLast? = some 35
  | .cont frag _ _ => frag = [] ∨ frag.getLast? = some 35

/-!
Theorems. Shared helper lemmas come first; each claim then gets exactly one
main theorem (plus, where needed, a counterexample for the statement as
originally claimed and a witness instantiating the hypotheses).
-/

/-- `to_le` produces exactly `size` bytes. -/
theorem to_le_length (n : Int) (size : Nat) : (to_le n size).length = size := by
  induction size generalizing n with
  | zero => rfl
  | succ k ih => simp [to_le, ih]

/-- Dropping a leading chunk of known length from a slice base. -/
theorem pySlice_append (A rest : List Nat) (a b : Nat) (h : A.length = a) :
    pySlice (A ++ rest) a b = rest.take (b - a) := by
  simp [pySlice, List.drop_left' h]

/-- Round trip of a 4-byte little-endian field, non-negative case. -/
theorem from_le_to_le_4_nonneg (n : Int) (h0 : 0 ≤ n) (h1 : n < 4294967296) :
    (from_le (to_le n 4) : Int) = n := by
  simp only [to_le, from_le, List.foldr]
  omega

/-- Round trip of a 4-byte little-endian field, negative case: the encoder
wraps modulo 2^32. -/
theorem from_le_to_le_4_neg (n : Int) (h0 : -4294967296 < n) (h1 : n < 0) :
    (from_le (to_le n 4) : Int) = n + 4294967296 := by
  simp only [to_le, from_le, List.foldr]
  omega

/-- Re-encoding a decoded RA recovers the wire integer exactly (all scaling
steps cancel over the rationals before the floor is taken). -/
theorem encodeRaInt_decode (x : Nat) : encodeRaInt (stelDecodeRa x) = (x : Int) := by
  unfold encodeRaInt stelDecodeRa
  have h : ((x : ℚ) * 24 / 4294967296) * (4294967296 / 24 : ℚ) = (x : ℚ) := by
    ring
  rw [h, Int.floor_natCast]

/-- Re-encoding a decoded Dec recovers the signed wire integer exactly. -/
theorem encodeDecInt_decode (y : Nat) : encodeDecInt (stelDecodeDec y) = stelFoldDec y := by
  unfold encodeDecInt stelDecodeDec
  have h : (((stelFoldDec y : Int) : ℚ) * 360 / 4294967296) * (4294967296 / 360 : ℚ)
      = ((stelFoldDec y : Int) : ℚ) := by ring
  rw [h, Int.floor_intCast]

/-- The RA field of a `sendEqCoords` frame is bytes 12..16. -/
theorem sendEqCoordsMsg_raField (tstamp : Int) (ra de : ℚ) (status : Int) :
    pySlice (sendEqCoordsMsg tstamp ra de status) 12 16 = to_le (encodeRaInt ra) 4 := by
  unfold sendEqCoordsMsg
  rw [show to_le 24 2 ++ to_le 0 2 ++ to_le tstamp 8 ++ to_le (encodeRaInt ra) 4 ++
      to_le (encodeDecInt de) 4 ++ to_le status 4
      = (to_le 24 2 ++ to_le 0 2 ++ to_le tstamp 8) ++
        (to_le (encodeRaInt ra) 4 ++ (to_le (encodeDecInt de) 4 ++ to_le status 4)) by
    simp [List.append_assoc]]
  rw [pySlice_append _ _ 12 16 (by simp [to_le_length])]
  simp [List.take_left' (to_le_length (encodeRaInt ra) 4)]

/-- The Dec field of a `sendEqCoords` frame is bytes 16..20. -/
theorem sendEqCoordsMsg_decField (tstamp : Int) (ra de : ℚ) (status : Int) :
    pySlice (sendEqCoordsMsg tstamp ra de status) 16 20 = to_le (encodeDecInt de) 4 := by
  unfold sendEqCoordsMsg
  rw [show to_le 24 2 ++ to_le 0 2 ++ to_le tstamp 8 ++ to_le (encodeRaInt ra) 4 ++
      to_le (encodeDecInt de) 4 ++ to_le status 4
      = (to_le 24 2 ++ to_le 0 2 ++ to_le tstamp 8 ++ to_le (encodeRaInt ra) 4) ++
        (to_le (encodeDecInt de) 4 ++ to_le status 4) by
    simp [List.append_assoc]]
  rw [pySlice_append _ _ 16 20 (by simp [to_le_length])]
  simp [List.take_left' (to_le_length (encodeDecInt de) 4)]

set_option maxRecDepth 65536

/-- Claim C2 (code bug evidence): after receiving only the 4 bytes
`14 00 00 00` on a fresh connection (`recv = 4`, read buffer grown to 236
bytes by the slice assignment in `performRead`), `datareceived` interprets the
full 20-byte goto frame those bytes merely announce: the completeness check
compares the declared size 20 against `len(self.readbuf)` instead of `recv`,
so the decoder consumes 20 bytes (16 of them never received, read as stale
zeros), queues a bogus goto for (ra, dec) = (0, 0), and reports 20 bytes
consumed although only 4 arrived — contradicting the claim that no frame is
interpreted before its full declared length has been received. -/
theorem c2_incomplete_frame_interpreted :
    datareceived ([20, 0, 0, 0] ++ List.replicate 232 0) 4 =
      some (20, [(stelDecodeRa 0, stelDecodeDec 0)]) ∧
    stelDecodeRa 0 = 0 ∧ stelDecodeDec 0 = 0 ∧ 4 < 20 := by
  refine ⟨rfl, ?_, ?_, by norm_num⟩
  · norm_num [stelDecodeRa]
  · norm_num [stelDecodeDec, stelFoldDec]

/-- Claim C4: for every valid Stellarium goto frame carrying 32-bit RA
integer `x` and Dec integer `y`, decoding them to hours/degrees as in
`datareceived` and re-encoding through the floor-scaled conversion of
`sendEqCoords` reproduces `x` and `y` to within one integer unit (here shown
exact) in the RA field (bytes 12..16) and Dec field (bytes 16..20) of the
emitted frame. -/
theorem c4_goto_roundtrip (x y : Nat) (tstamp status : Int)
    (hx : x < 4294967296) (hy : y < 4294967296) :
    ((from_le (pySlice (sendEqCoordsMsg tstamp (stelDecodeRa x) (stelDecodeDec y) status)
        12 16) : Int) - (x : Int)).natAbs ≤ 1 ∧
    ((from_le (pySlice (sendEqCoordsMsg tstamp (stelDecodeRa x) (stelDecodeDec y) status)
        16 20) : Int) - (y : Int)).natAbs ≤ 1 := by
  rw [sendEqCoordsMsg_raField, sendEqCoordsMsg_decField, encodeRaInt_decode,
    encodeDecInt_decode]
  constructor
  · rw [from_le_to_le_4_nonneg (x : Int) (by positivity) (by exact_mod_cast hx)]
    simp
  · unfold stelFoldDec
    by_cases h : (2147483648 : Int) < (y : Int)
    · rw [if_pos h]
      rw [from_le_to_le_4_neg _ (by omega) (by omega)]
      simp
    · rw [if_neg h]
      rw [from_le_to_le_4_nonneg (y : Int) (by positivity) (by exact_mod_cast hy)]
      simp

/-- Witness for C4 at the concrete frame integers x = 77, y = 3221225472. -/
theorem c4_goto_roundtrip_witness :
    ((from_le (pySlice (sendEqCoordsMsg 0 (stelDecodeRa 77) (stelDecodeDec 3221225472) 0)
        12 16) : Int) - (77 : Int)).natAbs ≤ 1 ∧
    ((from_le (pySlice (sendEqCoordsMsg 0 (stelDecodeRa 77) (stelDecodeDec 3221225472) 0)
        16 20) : Int) - ((3221225472 : Nat) : Int)).natAbs ≤ 1 :=
  c4_goto_roundtrip 77 3221225472 0 0 (by norm_num) (by norm_num)

/-- Claim C5: a Dec integer `y > 2^31` decodes to the negative value
`-(2^32 - y) * 360 / 2^32`; a Dec integer `y ≤ 2^31` decodes to
`y * 360 / 2^32`. -/
theorem c5_dec_signed_decode (y : Nat) (hy : y < 4294967296) :
    stelDecodeDec y =
      (if 2147483648 < y then -((4294967296 : ℚ) - (y : ℚ)) * 360 / 4294967296
       else (y : ℚ) * 360 / 4294967296) ∧
    (2147483648 < y → stelDecodeDec y < 0) := by
  have hcast : ((2147483648 : Int) < (y : Int)) ↔ (2147483648 < y) := by
    exact_mod_cast Iff.rfl
  constructor
  · unfold stelDecodeDec stelFoldDec
    by_cases h : 2147483648 < y
    · rw [if_pos (hcast.mpr h), if_pos h]
      push_cast
      ring
    · rw [if_neg (fun h2 => h (hcast.mp h2)), if_neg h]
      push_cast
      ring
  · intro h
    unfold stelDecodeDec stelFoldDec
    rw [if_pos (hcast.mpr h)]
    have h1 : (0 : ℚ) < 4294967296 - (y : ℚ) := by
      have : (y : ℚ) < 4294967296 := by exact_mod_cast hy
      linarith
    push_cast
    apply div_neg_of_neg_of_pos
    · nlinarith
    · norm_num

/-- Witness for C5 at y = 3221225472 (negative branch, value -90 degrees)
and y = 1000 (non-negative branch). -/
theorem c5_dec_signed_decode_witness :
    (2147483648 < 3221225472 → stelDecodeDec 3221225472 < 0) ∧
    stelDecodeDec 1000 =
      (if 2147483648 < (1000 : Nat) then
        -((4294967296 : ℚ) - (1000 : ℚ)) * 360 / 4294967296
       else (1000 : ℚ) * 360 / 4294967296) :=
  ⟨(c5_dec_signed_decode 3221225472 (by norm_num)).2,
   (c5_dec_signed_decode 1000 (by norm_num)).1⟩

/-- Claim C8: with the telescope connected and at least two queued goto
requests, one main-loop pass dequeues and sends exactly the oldest request,
the next pass sends the second one (FIFO), and no pass ever sends more than
one request. -/
theorem c8_goto_fifo (a b : ℚ × ℚ) (rest : List (ℚ × ℚ)) :
    mainLoopGotoStep true (a :: b :: rest) = (b :: rest, [a]) ∧
    (mainLoopGotoStep true (mainLoopGotoStep true (a :: b :: rest)).1).2 = [b] ∧
    ∀ q : List (ℚ × ℚ), ((mainLoopGotoStep true q).2).length ≤ 1 := by
  refine ⟨rfl, rfl, ?_⟩
  intro q
  cases q <;> simp [mainLoopGotoStep]


/-- Inversion: a fallible subexpression that reached a continuation produced
a value. -/
theorem exceptCont_eq_cont {α : Type} (e : Except Unit α) (mk : α → StepRes)
    (f : List Nat) (w : List PropWrite) (j2 : Nat)
    (h : exceptCont e mk = .cont f w j2) : ∃ a, mk a = .cont f w j2 := by
  unfold exceptCont at h
  rcases e with e0 | a
  · cases h
  · exact ⟨a, h⟩

/-- Inversion: an index access that reached a continuation produced an
element. -/
theorem idxCont_eq_cont {α : Type} (o : Option α) (mk : α → StepRes)
    (f : List Nat) (w : List PropWrite) (j2 : Nat)
    (h : idxCont o mk = .cont f w j2) : ∃ a, mk a = .cont f w j2 := by
  unfold idxCont at h
  rcases o with _ | a
  · cases h
  · exact ⟨a, h⟩

/-- The `e`/`E` handler never moves the read index backwards. -/
theorem handlerGetRaDec_le (env : SynEnv) (cmd j : Nat)
    (f : List Nat) (w : List PropWrite) (j2 : Nat)
    (h : handlerGetRaDec env cmd j = .cont f w j2) : j ≤ j2 := by
  unfold handlerGetRaDec at h
  repeat' split at h
  all_goals (cases h; omega)

/-- The `h` handler never moves the read index backwards. -/
theorem handlerGetTime_le (env : SynEnv) (j : Nat)
    (f : List Nat) (w : List PropWrite) (j2 : Nat)
    (h : handlerGetTime env j = .cont f w j2) : j ≤ j2 := by
  unfold handlerGetTime at h
  rcases ht : env.timeUtc with _ | t <;> simp only [ht] at h
  · cases h; omega
  · obtain ⟨utc0, h⟩ := exceptCont_eq_cont _ _ _ _ _ h
    obtain ⟨off, h⟩ := exceptCont_eq_cont _ _ _ _ _ h
    obtain ⟨utc, h⟩ := exceptCont_eq_cont _ _ _ _ _ h
    obtain ⟨bs, h⟩ := exceptCont_eq_cont _ _ _ _ _ h
    cases h; omega

/-- The `m` handler never moves the read index backwards. -/
theorem handlerMountModel_le (env : SynEnv) (j : Nat)
    (f : List Nat) (w : List PropWrite) (j2 : Nat)
    (h : handlerMountModel env j = .cont f w j2) : j ≤ j2 := by
  unfold handlerMountModel at h
  rcases hm : env.mountInfo with _ | name <;> simp only [hm] at h <;> (cases h; omega)

/-- The `w` handler never moves the read index backwards. -/
theorem handlerGetLocation_le (env : SynEnv) (j : Nat)
    (f : List Nat) (w : List PropWrite) (j2 : Nat)
    (h : handlerGetLocation env j = .cont f w j2) : j ≤ j2 := by
  unfold handlerGetLocation at h
  rcases hg : env.geoCoord with _ | g <;> simp only [hg] at h
  · cases h; omega
  · obtain ⟨latBytes, h⟩ := exceptCont_eq_cont _ _ _ _ _ h
    obtain ⟨longBytes, h⟩ := exceptCont_eq_cont _ _ _ _ _ h
    cases h; omega

/-- The `H` handler advances the read index by its 8 payload bytes. -/
theorem handlerSetTime_le (env : SynEnv) (buf : List Nat) (j : Nat)
    (f : List Nat) (w : List PropWrite) (j2 : Nat)
    (h : handlerSetTime env buf j = .cont f w j2) : j ≤ j2 := by
  unfold handlerSetTime at h
  repeat' split at h
  all_goals try (cases h)
  all_goals
    (obtain ⟨lt, h⟩ := exceptCont_eq_cont _ _ _ _ _ h
     obtain ⟨utc, h⟩ := exceptCont_eq_cont _ _ _ _ _ h
     cases h <;> omega)

/-- The `W` handler advances the read index by its 8 payload bytes. -/
theorem handlerSetLocation_le (env : SynEnv) (buf : List Nat) (j : Nat)
    (f : List Nat) (w : List PropWrite) (j2 : Nat)
    (h : handlerSetLocation env buf j = .cont f w j2) : j ≤ j2 := by
  unfold handlerSetLocation at h
  repeat' split at h
  all_goals (cases h <;> omega)

/-- The goto/sync tail continues exactly at the index it is given. -/
theorem gotoCore_eq_next (env : SynEnv) (ingoto : Bool) (rahour decdeg0 : ℚ)
    (next : Nat) (f : List Nat) (w : List PropWrite) (j2 : Nat)
    (h : gotoCore env ingoto rahour decdeg0 next = .cont f w j2) : j2 = next := by
  unfold gotoCore at h
  rcases he : env.eqCoord with _ | rd <;> simp only [he] at h
  · cases h; omega
  · rcases ho : env.onCoordSet with _ | u <;> simp only [ho] at h <;> (cases h; omega)

/-- The `r`/`R`/`s`/`S` handler advances the read index by its payload. -/
theorem handlerGoto_le (env : SynEnv) (buf : List Nat) (cmd j : Nat)
    (f : List Nat) (w : List PropWrite) (j2 : Nat)
    (h : handlerGoto env buf cmd j = .cont f w j2) : j ≤ j2 := by
  unfold handlerGoto at h
  by_cases hc : cmd = 114 ∨ cmd = 115 <;>
    [rw [if_pos hc] at h; rw [if_neg hc] at h] <;>
    (obtain ⟨ra, h⟩ := exceptCont_eq_cont _ _ _ _ _ h
     obtain ⟨de, h⟩ := exceptCont_eq_cont _ _ _ _ _ h
     have h2 := gotoCore_eq_next _ _ _ _ _ _ _ _ h
     omega)

/-- The `L` handler never moves the read index backwards. -/
theorem handlerInGoto_le (env : SynEnv) (j : Nat)
    (f : List Nat) (w : List PropWrite) (j2 : Nat)
    (h : handlerInGoto env j = .cont f w j2) : j ≤ j2 := by
  unfold handlerInGoto at h
  rcases he : env.eqCoord with _ | rd <;> simp only [he] at h
  · cases h; omega
  · by_cases hb : env.eqBusy = true <;>
      [rw [if_pos hb] at h; rw [if_neg hb] at h] <;> (cases h; omega)

/-- The `M` handler never moves the read index backwards. -/
theorem handlerAbort_le (env : SynEnv) (j : Nat)
    (f : List Nat) (w : List PropWrite) (j2 : Nat)
    (h : handlerAbort env j = .cont f w j2) : j ≤ j2 := by
  unfold handlerAbort at h
  rcases he : env.eqCoord with _ | rd <;> simp only [he] at h
  · cases h; omega
  · by_cases hb : env.eqBusy = true <;>
      [rw [if_pos hb] at h; rw [if_neg hb] at h]
    · rcases ha : env.abortMotion with _ | u <;> simp only [ha] at h <;> (cases h; omega)
    · cases h; omega

/-- The `P` handler advances the read index by its 7 payload bytes. -/
theorem handlerMove_le (env : SynEnv) (buf : List Nat) (j : Nat)
    (f : List Nat) (w : List PropWrite) (j2 : Nat)
    (h : handlerMove env buf j = .cont f w j2) : j ≤ j2 := by
  unfold handlerMove at h
  obtain ⟨d0, h⟩ := idxCont_eq_cont _ _ _ _ _ h
  by_cases hd0 : d0 ≠ 2
  · rw [if_pos hd0] at h; cases h; omega
  · rw [if_neg hd0] at h
    obtain ⟨d1, h⟩ := idxCont_eq_cont _ _ _ _ _ h
    rcases hm : (if d1 = 16 then env.motionWE else env.motionNS) with _ | u <;>
      rw [hm] at h
    · cases h; omega
    · obtain ⟨rate, h⟩ := idxCont_eq_cont _ _ _ _ _ h
      by_cases hr : rate = 0
      · rw [if_pos hr] at h; cases h; omega
      · rw [if_neg hr] at h
        rcases hs : env.slewRate with _ | names <;> simp only [hs] at h
        · cases h; omega
        · by_cases hl : names.length < 1
          · rw [if_pos hl] at h; cases h; omega
          · rw [if_neg hl] at h
            obtain ⟨d2, h⟩ := idxCont_eq_cont _ _ _ _ _ h
            cases h; omega

/-- The `p` handler never moves the read index backwards. -/
theorem handlerPierSide_le (env : SynEnv) (j : Nat)
    (f : List Nat) (w : List PropWrite) (j2 : Nat)
    (h : handlerPierSide env j = .cont f w j2) : j ≤ j2 := by
  unfold handlerPierSide at h
  rcases hp : env.pierSide with _ | states <;> simp only [hp] at h
  · cases h; omega
  · obtain ⟨s0, h⟩ := idxCont_eq_cont _ _ _ _ _ h
    cases h; omega

/-- The `t` handler never moves the read index backwards. -/
theorem handlerGetTracking_le (env : SynEnv) (j : Nat)
    (f : List Nat) (w : List PropWrite) (j2 : Nat)
    (h : handlerGetTracking env j = .cont f w j2) : j ≤ j2 := by
  unfold handlerGetTracking at h
  rcases ht : env.trackRate with _ | states <;> simp only [ht] at h
  · cases h; omega
  · obtain ⟨b, h⟩ := exceptCont_eq_cont _ _ _ _ _ h
    rcases b with _ | _ <;> (cases h; omega)

/-- The `T` handler advances the read index past its mode byte. -/
theorem handlerSetTracking_le (env : SynEnv) (buf : List Nat) (j : Nat)
    (f : List Nat) (w : List PropWrite) (j2 : Nat)
    (h : handlerSetTracking env buf j = .cont f w j2) : j ≤ j2 := by
  unfold handlerSetTracking at h
  obtain ⟨mode, h⟩ := idxCont_eq_cont _ _ _ _ _ h
  rcases ht : env.trackRate with _ | states <;> simp only [ht] at h
  · cases h; omega
  · split at h
    · obtain ⟨s0, h⟩ := idxCont_eq_cont _ _ _ _ _ h
      rcases s0 with _ | _
      · cases h
      · cases h; omega
    · obtain ⟨b, h⟩ := exceptCont_eq_cont _ _ _ _ _ h
      rcases b with _ | _ <;> (cases h; omega)

/-- No opcode dispatch ever moves the read index backwards: every handler
either raises, returns early, or continues at an index at least `j` (the
position just after the opcode byte). -/
theorem synDispatch_le (env : SynEnv) (buf : List Nat) (cmd j : Nat)
    (f : List Nat) (w : List PropWrite) (j2 : Nat)
    (h : synDispatch env buf cmd j = .cont f w j2) : j ≤ j2 := by
  unfold synDispatch at h
  by_cases h0 : cmd = 0
  · rw [if_pos h0] at h; cases h; omega
  rw [if_neg h0] at h
  by_cases h35 : cmd = 35
  · rw [if_pos h35] at h; cases h; omega
  rw [if_neg h35] at h
  by_cases h75 : cmd = 75
  · rw [if_pos h75] at h
    rcases hc : env.isconnected with _ | _ <;> simp only [hc] at h <;> (cases h; omega)
  rw [if_neg h75] at h
  by_cases hdis : ¬env.hasDevice ∨ ¬env.isconnected ∨ ¬env.deviceConnected
  · rw [if_pos hdis] at h; cases h
  rw [if_neg hdis] at h
  by_cases h74 : cmd = 74
  · rw [if_pos h74] at h; cases h; omega
  rw [if_neg h74] at h
  by_cases heE : cmd = 101 ∨ cmd = 69
  · rw [if_pos heE] at h; exact handlerGetRaDec_le _ _ _ _ _ _ h
  rw [if_neg heE] at h
  by_cases h104 : cmd = 104
  · rw [if_pos h104] at h; exact handlerGetTime_le _ _ _ _ _ h
  rw [if_neg h104] at h
  by_cases h109 : cmd = 109
  · rw [if_pos h109] at h; exact handlerMountModel_le _ _ _ _ _ h
  rw [if_neg h109] at h
  by_cases h119 : cmd = 119
  · rw [if_pos h119] at h; exact handlerGetLocation_le _ _ _ _ _ h
  rw [if_neg h119] at h
  by_cases h86 : cmd = 86
  · rw [if_pos h86] at h; cases h; omega
  rw [if_neg h86] at h
  by_cases h72 : cmd = 72
  · rw [if_pos h72] at h; exact handlerSetTime_le _ _ _ _ _ _ h
  rw [if_neg h72] at h
  by_cases h87 : cmd = 87
  · rw [if_pos h87] at h; exact handlerSetLocation_le _ _ _ _ _ _ h
  rw [if_neg h87] at h
  by_cases hrs : cmd = 114 ∨ cmd = 82 ∨ cmd = 115 ∨ cmd = 83
  · rw [if_pos hrs] at h; exact handlerGoto_le _ _ _ _ _ _ _ h
  rw [if_neg hrs] at h
  by_cases h76 : cmd = 76
  · rw [if_pos h76] at h; exact handlerInGoto_le _ _ _ _ _ h
  rw [if_neg h76] at h
  by_cases h77 : cmd = 77
  · rw [if_pos h77] at h; exact handlerAbort_le _ _ _ _ _ h
  rw [if_neg h77] at h
  by_cases h80 : cmd = 80
  · rw [if_pos h80] at h; exact handlerMove_le _ _ _ _ _ _ h
  rw [if_neg h80] at h
  by_cases h112 : cmd = 112
  · rw [if_pos h112] at h; exact handlerPierSide_le _ _ _ _ _ h
  rw [if_neg h112] at h
  by_cases h116 : cmd = 116
  · rw [if_pos h116] at h; exact handlerGetTracking_le _ _ _ _ _ h
  rw [if_neg h116] at h
  by_cases h84 : cmd = 84
  · rw [if_pos h84] at h; exact handlerSetTracking_le _ _ _ _ _ _ h
  rw [if_neg h84] at h
  cases h; omega

/-- The decode loop never exhausts its fuel when given more fuel than there
are bytes left: every continuation strictly advances the read index. -/
theorem processCommandAux_isSome (env : SynEnv) (buf : List Nat) :
    ∀ (fuel i : Nat), buf.length - i < fuel → (processCommandAux env buf fuel i).isSome := by
  intro fuel
  induction fuel with
  | zero => intro i hf; exact absurd hf (by omega)
  | succ n ih =>
    intro i hf
    by_cases h : i < buf.length
    · rcases hd : synDispatch env buf (buf.get ⟨i, h⟩) (i + 1) with _ | frag | ⟨frag, ws, next⟩ <;>
        simp only [List.get_eq_getElem] at hd
      · simp [processCommandAux, dif_pos h, hd]
      · simp [processCommandAux, dif_pos h, hd]
      · have hle := synDispatch_le env buf (buf.get ⟨i, h⟩) (i + 1) frag ws next hd
        have hrec := ih next (by omega)
        rcases hx : processCommandAux env buf n next with _ | e
        · rw [hx] at hrec
          exact absurd hrec (by simp)
        · rcases e with e0 | p
          · simp [processCommandAux, dif_pos h, hd, hx]
          · simp [processCommandAux, dif_pos h, hd, hx]
    · simp [processCommandAux, h]

/-- Claim C9: `process_command` terminates on every finite input buffer.
Each iteration consumes the opcode byte unconditionally and every dispatch
continues at a strictly larger read index, so running the decode loop with
more fuel than remaining bytes never exhausts it: the loop always reaches the
buffer length (or an early return / exception). -/
theorem c9_decode_progress (env : SynEnv) (buf : List Nat) :
    (∀ (i cmd : Nat) (frag : List Nat) (ws : List PropWrite) (i2 : Nat),
      synDispatch env buf cmd (i + 1) = .cont frag ws i2 → i < i2) ∧
    (∀ (fuel i : Nat), buf.length - i < fuel →
      (processCommandAux env buf fuel i).isSome) := by
  constructor
  · intro i cmd frag ws i2 hd
    have hle := synDispatch_le env buf cmd (i + 1) frag ws i2 hd
    omega
  · exact processCommandAux_isSome env buf

/-- Witness for C9 at the echo command `K A` in a connected environment. -/
theorem c9_decode_progress_witness :
    synDispatch envConn [75, 65] 75 (0 + 1) = .cont [65, 35] [] 2 ∧
    (0 : Nat) < 2 ∧ (processCommandAux envConn [75, 65] 3 0).isSome := by
  refine ⟨by decide, ?_, ?_⟩
  · exact (c9_decode_progress envConn [75, 65]).1 0 75 [65, 35] [] 2 (by decide)
  · exact (c9_decode_progress envConn [75, 65]).2 3 0 (by norm_num)

/-- Claim C10: in the `H` (set time) handler, the unpacked offset is a byte
and hence never negative, so the `offset < 0` wrap branch is unreachable and
the offset is interpreted as a non-negative number of hours subtracted from
local time. Concretely, offset byte 254 (the wire encoding a client would use
for -2) subtracts 254 hours: `H 0c 00 00 06 01 18 fe 00` (2024-06-01
12:00:00, offset 254) writes UTC 2024-05-21T22:00:00 with offset text 254. -/
theorem c10_time_offset_unsigned :
    (∀ b : Nat, hOffsetUnwrap (b : Int) = (b : Int)) ∧
    processCommand envConn [72, 12, 0, 0, 6, 1, 24, 254, 0] =
      some (.ok ([35], [.timeUtc ⟨2024, 5, 21, 22, 0, 0⟩ 254])) := by
  constructor
  · intro b
    unfold hOffsetUnwrap
    rw [if_neg (by omega)]
  · decide

/-- Counterexample to claim C3 as stated: with the device disconnected, the
0x00 no-op opcode is not answered with an error token — the reply to the
buffer `[0x00]` is empty, not `#`. -/
theorem c3_claim_counterexample :
    processCommand envDisc [0] = some (.ok ([], [])) ∧ ([] : List Nat) ≠ [35] := by
  exact ⟨by decide, by decide⟩

/-- Claim C3 (amended): whenever the INDI device is not currently connected
(no device handle, server link down, or device disconnected),
`process_command` answers the first opcode other than `K`, `#` and the 0x00
no-op with a single error token `#`, performing no property write and
stopping; 0x00 is skipped silently, and `K` echoes its payload byte while the
server link is up (answering with the error token otherwise), so it remains
usable as a liveness probe. -/
theorem c3_disconnected_shortcircuit (env : SynEnv)
    (hdis : env.hasDevice = false ∨ env.isconnected = false ∨
      env.deviceConnected = false) :
    (∀ (c : Nat) (rest : List Nat), c ≠ 0 → c ≠ 35 → c ≠ 75 →
      processCommand env (c :: rest) = some (.ok ([35], []))) ∧
    (∀ (rest : List Nat) (fuel : Nat),
      processCommandAux env (0 :: rest) (fuel + 1) 0 =
        processCommandAux env (0 :: rest) fuel 1) ∧
    (env.isconnected = true → ∀ b : Nat,
      processCommand env [75, b] = some (.ok ([b, 35], []))) ∧
    (env.isconnected = false → ∀ b : Nat,
      processCommand env [75, b] = some (.ok ([35], []))) := by
  have hd : (¬(env.hasDevice = true) ∨ ¬(env.isconnected = true) ∨
      ¬(env.deviceConnected = true)) := by
    rcases hdis with h | h | h <;> simp [h]
  refine ⟨?_, ?_, ?_, ?_⟩
  · intro c rest h0 h35 h75
    have hdisp : synDispatch env (c :: rest) c 1 = .ret [35] := by
      unfold synDispatch
      rw [if_neg h0, if_neg h35, if_neg h75, if_pos hd]
    simp [processCommand, processCommandAux, hdisp]
  · intro rest fuel
    have hdisp : synDispatch env (0 :: rest) 0 1 = .cont [] [] 1 := by
      simp [synDispatch]
    rcases hx : processCommandAux env (0 :: rest) fuel 1 with _ | e
    · simp [processCommandAux, hdisp, hx]
    · rcases e with e0 | p <;> simp [processCommandAux, hdisp, hx]
  · intro hc b
    have hdisp : synDispatch env [75, b] 75 1 = .cont [b, 35] [] 2 := by
      simp [synDispatch, hc, pySlice]
    simp [processCommand, processCommandAux, hdisp]
  · intro hc b
    have hdisp : synDispatch env [75, b] 75 1 = .cont [35] [] 2 := by
      simp [synDispatch, hc]
    simp [processCommand, processCommandAux, hdisp]

/-- Witness for C3 at the `J` opcode and a `K` echo against `envDisc`. -/
theorem c3_disconnected_shortcircuit_witness :
    processCommand envDisc [74] = some (.ok ([35], [])) ∧
    processCommand envDisc [75, 65] = some (.ok ([65, 35], [])) := by
  have h := c3_disconnected_shortcircuit envDisc (Or.inr (Or.inr rfl))
  exact ⟨h.1 74 [] (by decide) (by decide) (by decide), h.2.2.1 rfl 65⟩

/-- Counterexample to claim C1 as stated: processing the unknown opcode 0xFF
does not consume exactly one byte. If it did, decoding `[0xFF, '#']` would
produce one error token and then resume at the `#` terminator, yielding the
reply `##`; the code consumes two bytes and replies `#` alone. -/
theorem c1_claim_counterexample :
    ¬ (processCommand envConn [255, 35] =
        (processCommand envConn [35]).map
          (Except.map (fun p => (35 :: p.1, p.2)))) := by
  decide

/-- Claim C1 (amended): an opcode byte outside the recognized table, decoded
while the device is connected, appends exactly one `#` error token to the
reply and advances the read index by exactly two bytes — the opcode byte
(consumed before dispatch) plus one further byte (`i += 1` in the unknown
branch) — before the decoder resumes. -/
theorem c1_unknown_opcode_resync (env : SynEnv) (c : Nat)
    (hdev : env.hasDevice = true) (hcon : env.isconnected = true)
    (hdc : env.deviceConnected = true) (hc : c ∉ knownOpcodes)
    (rest : List Nat) (fuel : Nat) :
    processCommandAux env (c :: rest) (fuel + 1) 0 =
      (processCommandAux env (c :: rest) fuel 2).map
        (Except.map (fun p => (35 :: p.1, p.2))) := by
  simp only [knownOpcodes, List.mem_cons, List.not_mem_nil, or_false] at hc
  push_neg at hc
  obtain ⟨h0, h35, h75, h74, h101, h69, h104, h109, h119, h86, h72, h87,
    h114, h82, h115, h83, h76, h77, h80, h112, h116, h84⟩ := hc
  have hdisp : synDispatch env (c :: rest) c 1 = .cont [35] [] 2 := by
    unfold synDispatch
    rw [if_neg h0, if_neg h35, if_neg h75,
      if_neg (by simp [hdev, hcon, hdc]), if_neg h74,
      if_neg (by simp [h101, h69]), if_neg h104, if_neg h109, if_neg h119,
      if_neg h86, if_neg h72, if_neg h87,
      if_neg (by simp [h114, h82, h115, h83]), if_neg h76, if_neg h77,
      if_neg h80, if_neg h112, if_neg h116, if_neg h84]
  rcases hx : processCommandAux env (c :: rest) fuel 2 with _ | e
  · simp [processCommandAux, hdisp, hx]
  · rcases e with ⟨⟩ | p <;> simp [processCommandAux, hdisp, hx, Except.map]

/-- Witness for C1 at the unknown opcode 0xFF followed by a terminator. -/
theorem c1_unknown_opcode_resync_witness :
    processCommandAux envConn [255, 35] 3 0 =
      (processCommandAux envConn [255, 35] 2 2).map
        (Except.map (fun p => (35 :: p.1, p.2))) :=
  c1_unknown_opcode_resync envConn 255 rfl rfl rfl (by decide) [35] 2

/-- Exhausted retries: with every attempt invalid and the property not yet
marked, the accessor sleeps once per attempt, marks the property failed and
returns `None`. -/
theorem getPropWithRetryAux_exhaust (valid : Nat → Bool) (failures : List String)
    (prop : String) (hv : ∀ k, valid k = false) (hmem : prop ∉ failures) :
    ∀ (ntry att : Nat),
      getPropWithRetryAux valid failures prop att ntry = (none, prop :: failures, ntry) := by
  intro ntry
  induction ntry with
  | zero => intro att; simp [getPropWithRetryAux, hmem]
  | succ n ih => intro att; simp [getPropWithRetryAux, hv att, hmem, ih (att + 1)]

/-- Fast failure: a marked property whose first attempt is invalid returns
`None` with no sleep. -/
theorem getPropWithRetryAux_fastfail (valid : Nat → Bool) (failures : List String)
    (prop : String) (att n : Nat) (hmem : prop ∈ failures) (hv : valid att = false) :
    getPropWithRetryAux valid failures prop att (n + 1) = (none, failures, 0) := by
  simp [getPropWithRetryAux, hv, hmem]

/-- Success: a valid first attempt clears the property from the failure set
and returns it with no sleep. -/
theorem getPropWithRetryAux_success (valid : Nat → Bool) (failures : List String)
    (prop : String) (att n : Nat) (hv : valid att = true) :
    getPropWithRetryAux valid failures prop att (n + 1) =
      (some (), failures.erase prop, 0) := by
  simp [getPropWithRetryAux, hv]

/-- Claim C6: once a retry accessor has exhausted its 5 attempts on a
property name and recorded it in the failure set, every later fetch of that
name returns `None` after a single non-sleeping probe (no retry delay), until
a fetch succeeds, which erases the name from the failure set and returns the
property; the three accessors share this behaviour. -/
theorem c6_retry_failure_cache :
    (∀ (valid : Nat → Bool) (failures : List String) (prop : String),
      (∀ k, valid k = false) → prop ∉ failures →
      getNumberWithRetry valid failures prop = (none, prop :: failures, 5)) ∧
    (∀ (valid : Nat → Bool) (failures : List String) (prop : String),
      prop ∈ failures → valid 0 = false →
      getNumberWithRetry valid failures prop = (none, failures, 0)) ∧
    (∀ (valid : Nat → Bool) (failures : List String) (prop : String),
      valid 0 = true →
      getNumberWithRetry valid failures prop = (some (), failures.erase prop, 0)) ∧
    getSwitchWithRetry = getNumberWithRetry ∧
    getTextWithRetry = getNumberWithRetry := by
  refine ⟨?_, ?_, ?_, rfl, rfl⟩
  · intro valid failures prop hv hmem
    exact getPropWithRetryAux_exhaust valid failures prop hv hmem 5 0
  · intro valid failures prop hmem hv
    exact getPropWithRetryAux_fastfail valid failures prop 0 4 hmem hv
  · intro valid failures prop hv
    exact getPropWithRetryAux_success valid failures prop 0 4 hv

/-- Witness for C6 on the `GEOGRAPHIC_COORD` property name. -/
theorem c6_retry_failure_cache_witness :
    getNumberWithRetry (fun _ => false) [] "GEOGRAPHIC_COORD" =
      (none, ["GEOGRAPHIC_COORD"], 5) ∧
    getNumberWithRetry (fun _ => false) ["GEOGRAPHIC_COORD"] "GEOGRAPHIC_COORD" =
      (none, ["GEOGRAPHIC_COORD"], 0) ∧
    getNumberWithRetry (fun _ => true) ["GEOGRAPHIC_COORD"] "GEOGRAPHIC_COORD" =
      (some (), (["GEOGRAPHIC_COORD"] : List String).erase "GEOGRAPHIC_COORD", 0) :=
  ⟨c6_retry_failure_cache.1 _ _ _ (fun _ => rfl) (by simp),
   c6_retry_failure_cache.2.1 _ _ _ (by simp) rfl,
   c6_retry_failure_cache.2.2.1 _ _ _ rfl⟩

/-- A Python exception or a terminated continuation: `exceptCont` preserves
`stepTerm` when every continuation value does. -/
theorem stepTerm_exceptCont (e : Except Unit α) (mk : α → StepRes)
    (h : ∀ a, stepTerm (mk a)) : stepTerm (exceptCont e mk) := by
  cases e
  · exact trivial
  · exact h _

/-- An `IndexError` or a terminated continuation: `idxCont` preserves
`stepTerm` when every continuation value does. -/
theorem stepTerm_idxCont (o : Option α) (mk : α → StepRes)
    (h : ∀ a, stepTerm (mk a)) : stepTerm (idxCont o mk) := by
  cases o
  · exact trivial
  · exact h _

/-- Appending fragments that are empty or `#`-terminated keeps the property. -/
theorem lastTerm_append (a b : List Nat)
    (ha : a = [] ∨ a.getLast? = some 35) (hb : b = [] ∨ b.getLast? = some 35) :
    a ++ b = [] ∨ (a ++ b).getLast? = some 35 := by
  rcases hb with rfl | hb
  · simpa using ha
  · right
    rw [List.getLast?_append, hb]
    rfl

/-- The `e`/`E` reply is `#`-terminated. -/
theorem handlerGetRaDec_term (env : SynEnv) (cmd j : Nat) :
    stepTerm (handlerGetRaDec env cmd j) := by
  simp only [handlerGetRaDec]
  split
  · exact Or.inr rfl
  · split
    · exact Or.inr (by simp only [List.getLast?_append]; rfl)
    · exact Or.inr (by simp only [List.getLast?_append]; rfl)

/-- The `h` reply is `#`-terminated. -/
theorem handlerGetTime_term (env : SynEnv) (j : Nat) :
    stepTerm (handlerGetTime env j) := by
  simp only [handlerGetTime]
  split
  · exact Or.inr rfl
  · apply stepTerm_exceptCont
    intro utc0
    apply stepTerm_exceptCont
    intro off
    apply stepTerm_exceptCont
    intro utc
    apply stepTerm_exceptCont
    intro bs
    exact Or.inr (by simp only [List.getLast?_append]; rfl)

/-- The `m` reply is `#`-terminated. -/
theorem handlerMountModel_term (env : SynEnv) (j : Nat) :
    stepTerm (handlerMountModel env j) := by
  simp only [handlerMountModel]
  split
  · exact Or.inr rfl
  · exact Or.inr rfl

/-- The `w` reply is `#`-terminated. -/
theorem handlerGetLocation_term (env : SynEnv) (j : Nat) :
    stepTerm (handlerGetLocation env j) := by
  simp only [handlerGetLocation]
  split
  · exact Or.inr rfl
  · apply stepTerm_exceptCont
    intro latBytes
    apply stepTerm_exceptCont
    intro longBytes
    exact Or.inr (by simp only [List.getLast?_append]; rfl)

/-- The `H` reply is `#`-terminated. -/
theorem handlerSetTime_term (env : SynEnv) (buf : List Nat) (j : Nat) :
    stepTerm (handlerSetTime env buf j) := by
  simp only [handlerSetTime]
  split
  · apply stepTerm_exceptCont
    intro lt
    apply stepTerm_exceptCont
    intro utc
    split
    · exact Or.inr rfl
    · exact Or.inr rfl
  · exact trivial

/-- The `W` reply is `#`-terminated. -/
theorem handlerSetLocation_term (env : SynEnv) (buf : List Nat) (j : Nat) :
    stepTerm (handlerSetLocation env buf j) := by
  simp only [handlerSetLocation]
  split
  · split
    · exact Or.inr rfl
    · exact Or.inr rfl
  · exact trivial

/-- The goto/sync tail reply is `#`-terminated. -/
theorem gotoCore_term (env : SynEnv) (ingoto : Bool) (rahour decdeg0 : ℚ)
    (next : Nat) : stepTerm (gotoCore env ingoto rahour decdeg0 next) := by
  simp only [gotoCore]
  split
  · exact Or.inr rfl
  · split
    · exact Or.inr rfl
    · exact Or.inr rfl

/-- The `r`/`R`/`s`/`S` reply is `#`-terminated. -/
theorem handlerGoto_term (env : SynEnv) (buf : List Nat) (cmd j : Nat) :
    stepTerm (handlerGoto env buf cmd j) := by
  simp only [handlerGoto]
  split
  · apply stepTerm_exceptCont
    intro ra
    apply stepTerm_exceptCont
    intro de
    exact gotoCore_term env _ _ _ _
  · apply stepTerm_exceptCont
    intro ra
    apply stepTerm_exceptCont
    intro de
    exact gotoCore_term env _ _ _ _

/-- The `L` reply is `#`-terminated. -/
theorem handlerInGoto_term (env : SynEnv) (j : Nat) :
    stepTerm (handlerInGoto env j) := by
  simp only [handlerInGoto]
  split
  · exact Or.inr rfl
  · split
    · exact Or.inr rfl
    · exact Or.inr rfl

/-- The `M` reply is `#`-terminated. -/
theorem handlerAbort_term (env : SynEnv) (j : Nat) :
    stepTerm (handlerAbort env j) := by
  simp only [handlerAbort]
  split
  · exact Or.inr rfl
  · split
    · split
      · exact Or.inr rfl
      · exact Or.inr rfl
    · exact Or.inr rfl

/-- The `P` reply is `#`-terminated. -/
theorem handlerMove_term (env : SynEnv) (buf : List Nat) (j : Nat) :
    stepTerm (handlerMove env buf j) := by
  simp only [handlerMove]
  apply stepTerm_idxCont
  intro d0
  split
  · exact Or.inr rfl
  · apply stepTerm_idxCont
    intro d1
    split
    · exact Or.inr rfl
    · apply stepTerm_idxCont
      intro rate
      split
      · exact Or.inr rfl
      · split
        · exact Or.inr rfl
        · split
          · exact Or.inr rfl
          · apply stepTerm_idxCont
            intro d2
            exact Or.inr rfl

/-- The `p` reply is `#`-terminated. -/
theorem handlerPierSide_term (env : SynEnv) (j : Nat) :
    stepTerm (handlerPierSide env j) := by
  simp only [handlerPierSide]
  split
  · exact Or.inr rfl
  · apply stepTerm_idxCont
    intro s0
    exact Or.inr (by simp only [List.getLast?_append]; rfl)

/-- The `t` reply is `#`-terminated. -/
theorem handlerGetTracking_term (env : SynEnv) (j : Nat) :
    stepTerm (handlerGetTracking env j) := by
  simp only [handlerGetTracking]
  split
  · exact Or.inr rfl
  · apply stepTerm_exceptCont
    intro b
    split
    · exact Or.inr rfl
    · exact Or.inr rfl

/-- The `T` reply is `#`-terminated. -/
theorem handlerSetTracking_term (env : SynEnv) (buf : List Nat) (j : Nat) :
    stepTerm (handlerSetTracking env buf j) := by
  simp only [handlerSetTracking]
  apply stepTerm_idxCont
  intro mode
  split
  · exact Or.inr rfl
  · split
    · apply stepTerm_idxCont
      intro s0
      split
      · exact Or.inr rfl
      · exact trivial
    · apply stepTerm_exceptCont
      intro b
      split
      · exact Or.inr rfl
      · exact Or.inr rfl

/-- Every dispatch other than the `V` opcode yields a `#`-terminated
fragment. -/
theorem synDispatch_term (env : SynEnv) (buf : List Nat) (cmd j : Nat)
    (hc : cmd ≠ 86) : stepTerm (synDispatch env buf cmd j) := by
  unfold synDispatch
  by_cases h0 : cmd = 0
  · rw [if_pos h0]; exact Or.inl rfl
  rw [if_neg h0]
  by_cases h35 : cmd = 35
  · rw [if_pos h35]; exact Or.inr rfl
  rw [if_neg h35]
  by_cases h75 : cmd = 75
  · rw [if_pos h75]
    rcases henv : env.isconnected with _ | _
    · rw [if_neg (by decide)]
      exact Or.inr rfl
    · rw [if_pos rfl]
      exact Or.inr (by simp only [List.getLast?_append]; rfl)
  rw [if_neg h75]
  by_cases hdis : ¬env.hasDevice ∨ ¬env.isconnected ∨ ¬env.deviceConnected
  · rw [if_pos hdis]; exact rfl
  rw [if_neg hdis]
  by_cases h74 : cmd = 74
  · rw [if_pos h74]; exact Or.inr rfl
  rw [if_neg h74]
  by_cases heE : cmd = 101 ∨ cmd = 69
  · rw [if_pos heE]; exact handlerGetRaDec_term env cmd j
  rw [if_neg heE]
  by_cases h104 : cmd = 104
  · rw [if_pos h104]; exact handlerGetTime_term env j
  rw [if_neg h104]
  by_cases h109 : cmd = 109
  · rw [if_pos h109]; exact handlerMountModel_term env j
  rw [if_neg h109]
  by_cases h119 : cmd = 119
  · rw [if_pos h119]; exact handlerGetLocation_term env j
  rw [if_neg h119]
  rw [if_neg hc]
  by_cases h72 : cmd = 72
  · rw [if_pos h72]; exact handlerSetTime_term env buf j
  rw [if_neg h72]
  by_cases h87 : cmd = 87
  · rw [if_pos h87]; exact handlerSetLocation_term env buf j
  rw [if_neg h87]
  by_cases hrs : cmd = 114 ∨ cmd = 82 ∨ cmd = 115 ∨ cmd = 83
  · rw [if_pos hrs]; exact handlerGoto_term env buf cmd j
  rw [if_neg hrs]
  by_cases h76 : cmd = 76
  · rw [if_pos h76]; exact handlerInGoto_term env j
  rw [if_neg h76]
  by_cases h77 : cmd = 77
  · rw [if_pos h77]; exact handlerAbort_term env j
  rw [if_neg h77]
  by_cases h80 : cmd = 80
  · rw [if_pos h80]; exact handlerMove_term env buf j
  rw [if_neg h80]
  by_cases h112 : cmd = 112
  · rw [if_pos h112]; exact handlerPierSide_term env j
  rw [if_neg h112]
  by_cases h116 : cmd = 116
  · rw [if_pos h116]; exact handlerGetTracking_term env j
  rw [if_neg h116]
  by_cases h84 : cmd = 84
  · rw [if_pos h84]; exact handlerSetTracking_term env buf j
  rw [if_neg h84]
  exact Or.inr rfl

/-- Any successful run of the decode loop on a buffer avoiding the `V`
opcode produces an empty or `#`-terminated reply. -/
theorem processCommandAux_term (env : SynEnv) (buf : List Nat)
    (h86 : (86 : Nat) ∉ buf) :
    ∀ (fuel i : Nat) (r : List Nat) (w : List PropWrite),
      processCommandAux env buf fuel i = some (.ok (r, w)) →
      r = [] ∨ r.getLast? = some 35 := by
  intro fuel
  induction fuel with
  | zero => intro i r w h; simp [processCommandAux] at h
  | succ n ih =>
    intro i r w h
    by_cases hi : i < buf.length
    · have hcm : buf.get ⟨i, hi⟩ ≠ 86 := by
        intro hc
        exact h86 (hc ▸ List.get_mem buf _ _)
      have hstep := synDispatch_term env buf (buf.get ⟨i, hi⟩) (i + 1) hcm
      rcases hd : synDispatch env buf (buf.get ⟨i, hi⟩) (i + 1)
          with _ | frag | ⟨frag, ws, next⟩
      · rw [hd] at hstep
        simp only [List.get_eq_getElem] at hd
        simp [processCommandAux, dif_pos hi, hd] at h
      · rw [hd] at hstep
        simp only [List.get_eq_getElem] at hd
        simp only [processCommandAux, List.get_eq_getElem, dif_pos hi, hd,
          Option.some.injEq, Except.ok.injEq, Prod.mk.injEq] at h
        exact Or.inr (h.1 ▸ hstep)
      · rw [hd] at hstep
        simp only [List.get_eq_getElem] at hd
        rcases hx : processCommandAux env buf n next with _ | e
        · simp [processCommandAux, dif_pos hi, hd, hx] at h
        · rcases e with e0 | p
          · simp [processCommandAux, dif_pos hi, hd, hx] at h
          · simp only [processCommandAux, List.get_eq_getElem, dif_pos hi, hd,
              hx, Option.some.injEq, Except.ok.injEq, Prod.mk.injEq] at h
            have hrec := ih next p.1 p.2 (by rw [hx])
            exact h.1 ▸ lastTerm_append frag p.1 hstep hrec
    · simp only [processCommandAux, dif_neg hi, Option.some.injEq,
        Except.ok.injEq, Prod.mk.injEq] at h
      exact Or.inl h.1.symm

/-- Counterexample to claim C7 as stated: the `V` (version) opcode replies
with the six bytes of `032507` and no `#` terminator (the source comments
that appending `#` here confuses the driver), so not every reply token is
`#`-terminated. -/
theorem c7_claim_counterexample :
    processCommand envConn [86] = some (.ok ([48, 51, 50, 53, 48, 55], [])) ∧
    ([48, 51, 50, 53, 48, 55] : List Nat).getLast? ≠ some 35 := by
  exact ⟨by decide, by decide⟩

/-- Claim C7 (amended): on any buffer that avoids the `V` (version) opcode
byte, every reply `process_command` returns is either empty or ends in the
`#` terminator — each handler's reply fragment is `#`-terminated, as is the
error token for unknown opcodes and disconnected devices; the `V` reply alone
is deliberately sent unterminated. -/
theorem c7_reply_tokens_terminated (env : SynEnv) (buf : List Nat)
    (r : List Nat) (w : List PropWrite) (h86 : (86 : Nat) ∉ buf)
    (h : processCommand env buf = some (.ok (r, w))) :
    r = [] ∨ r.getLast? = some 35 :=
  processCommandAux_term env buf h86 (buf.length + 1) 0 r w h

/-- Witness for C7 at the `J` alignment query against the connected
environment. -/
theorem c7_reply_tokens_terminated_witness :
    processCommand envConn [74] = some (.ok ([1, 35], [])) ∧
    (([1, 35] : List Nat) = [] ∨ ([1, 35] : List Nat).getLast? = some 35) :=
  ⟨by decide,
   c7_reply_tokens_terminated envConn [74] [1, 35] [] (by decide) (by decide)⟩
